import Mathlib

/-!
Verification of the training/evaluation orchestration core of
`run_generation.py` (textured-3d-gan): the discriminator-batch split,
the generator running-average tracker, the checkpoint save/load state
machine, the FID-evaluation padding branch, the truncated-noise
rejection sampler, the learning-rate decay schedule, the
best-checkpoint search, and the startup configuration validation.

Tensors are modelled as lists over an abstract element type (rationals
where concrete arithmetic matters); the batch axis is the list axis.
External neural networks are opaque functions.
-/

namespace RunGeneration

/-! ### Discriminator output split (`divide_pred`, lines 493-504) -/

/-- A discriminator prediction: `None`, a flat tensor, or a list of
per-scale tensors (possibly with `None` entries), mirroring the dynamic
`type(pred) == list` dispatch in the source. Only the batch axis is
modelled. -/
inductive DPred (α : Type) where
  | none : DPred α
  | tensor : List α → DPred α
  | list : List (Option (List α)) → DPred α
deriving DecidableEq

/-- `divide_pred` from `run_generation.py`: splits a concatenated
fake-then-real batch back into its halves using `x.shape[0] // 2`;
a list output is split per element, `None` entries are passed through. -/
def divide_pred {α : Type} : DPred α → DPred α × DPred α
  | .none => (.none, .none)
  | .tensor x =>
      (.tensor (x.take (x.length / 2)), .tensor (x.drop (x.length / 2)))
  | .list ps =>
      (.list (ps.map (fun x => x.map (fun t => t.take (t.length / 2)))),
       .list (ps.map (fun x => x.map (fun t => t.drop (t.length / 2)))))

/-- The discriminator step (`mode == 'd'`, line 594) builds its input as
`X_combined = torch.cat((X_fake, X_real), dim=0)`: fake examples first,
then real examples. -/
def d_step_combined {α : Type} (X_fake X_real : List α) : List α :=
  X_fake ++ X_real

/-! ### Running-average tracker (`update_generator_running_avg`, lines 508-524) -/

/-- One entry of a model state dict: its dtype class
(`torch.is_floating_point`) and its value. -/
structure TensorParam where
  isFloat : Bool
  value : ℚ
deriving DecidableEq

/-- The epoch-dependent decay of `update_generator_running_avg`:
`alpha = base**100` for `epoch < 10`, `base**10` for `epoch < 100`,
`base` otherwise (lines 513-518). -/
def running_avg_alpha (base : ℚ) (epoch : ℕ) : ℚ :=
  if epoch < 10 then base ^ 100
  else if epoch < 100 then base ^ 10
  else base

/-- Per-parameter update (lines 520-524): floating-point parameters get
`param.mul_(alpha).add_(g, alpha=1-alpha)`; non-floating buffers get
`param.fill_(g)`. -/
def running_avg_param_update (alpha : ℚ) (param g : TensorParam) : TensorParam :=
  if param.isFloat then
    { param with value := param.value * alpha + g.value * (1 - alpha) }
  else
    { param with value := g.value }

/-- `update_generator_running_avg`: walks the shadow state dict in step
with the live generator state dict (same keys, modelled positionally)
and applies the per-parameter update with the scheduled decay. -/
def update_generator_running_avg (base : ℚ) (epoch : ℕ)
    (avg g : List TensorParam) : List TensorParam :=
  List.zipWith (running_avg_param_update (running_avg_alpha base epoch)) avg g

/-! ### Checkpoint manager (lines 703-737 and 863-889) -/

/-- The in-memory training-session state mutated by the module-level
script: counters, the four loss curves, the model weight states, the
optimizer states, and `args.epochs` (set to `-1` to disable training). -/
structure SessionState (W O : Type) where
  epoch : ℕ
  total_it : ℕ
  g_curve : List ℚ
  d_fake_curve : List ℚ
  d_real_curve : List ℚ
  flat_curve : List ℚ
  generator : W
  generator_running_avg : W
  discriminator : W
  optimizer_g : O
  optimizer_d : O
  epochs : ℤ
deriving DecidableEq

/-- A key of the checkpoint dictionary (the `text_encoder` keys are
omitted: `--conditional_text` aborts at startup, lines 155-157, so those
branches are dead in every run that constructs a model). -/
inductive CheckpointKey where
  | optimizer_g
  | optimizer_d
  | generator
  | generator_running_avg
  | discriminator
  | epoch
  | iteration
  | g_curve
  | d_fake_curve
  | d_real_curve
  | flat_curve
deriving DecidableEq

/-- A checkpoint record as loaded from disk: a dictionary that may lack
any of its keys (a weights-only artifact lacks `epoch`/`iteration`). -/
structure Checkpoint (W O : Type) where
  optimizer_g? : Option O
  optimizer_d? : Option O
  generator? : Option W
  generator_running_avg? : Option W
  discriminator? : Option W
  epoch? : Option ℕ
  iteration? : Option ℕ
  g_curve? : Option (List ℚ)
  d_fake_curve? : Option (List ℚ)
  d_real_curve? : Option (List ℚ)
  flat_curve? : Option (List ℚ)
deriving DecidableEq

/-- Dictionary access `chk[k]`: raises `KeyError` when the key is
absent. -/
def getKey {β : Type} (k : CheckpointKey) : Option β → Except CheckpointKey β
  | some v => .ok v
  | Option.none => .error k

/-- `save_checkpoint` (lines 863-884): writes every field of the live
session into one record. -/
def save_checkpoint {W O : Type} (s : SessionState W O) : Checkpoint W O :=
  { optimizer_g? := some s.optimizer_g
    optimizer_d? := some s.optimizer_d
    generator? := some s.generator
    generator_running_avg? := some s.generator_running_avg
    discriminator? := some s.discriminator
    epoch? := some s.epoch
    iteration? := some s.total_it
    g_curve? := some s.g_curve
    d_fake_curve? := some s.d_fake_curve
    d_real_curve? := some s.d_real_curve
    flat_curve? := some s.flat_curve }

/-- The module-level checkpoint load (lines 711-737), reached when
`--continue_train` or `--evaluate` is set: if the record has an `epoch`
key, the counters, the four curves and the generator weights are
restored; the running-average generator is always restored; with
`--continue_train` the optimizers and the discriminator are additionally
restored; otherwise training is disabled by `args.epochs = -1`. -/
def load_checkpoint_module {W O : Type} (continue_train : Bool)
    (chk : Checkpoint W O) (s : SessionState W O) :
    Except CheckpointKey (SessionState W O) := do
  let s1 ←
    if chk.epoch?.isSome then do
      let e ← getKey .epoch chk.epoch?
      let it ← getKey .iteration chk.iteration?
      let gc ← getKey .g_curve chk.g_curve?
      let dfc ← getKey .d_fake_curve chk.d_fake_curve?
      let drc ← getKey .d_real_curve chk.d_real_curve?
      let fc ← getKey .flat_curve chk.flat_curve?
      let gen ← getKey .generator chk.generator?
      pure { s with epoch := e, total_it := it, g_curve := gc,
                    d_fake_curve := dfc, d_real_curve := drc,
                    flat_curve := fc, generator := gen }
    else
      pure s
  let gra ← getKey .generator_running_avg chk.generator_running_avg?
  let s2 := { s1 with generator_running_avg := gra }
  if continue_train then do
    let og ← getKey .optimizer_g chk.optimizer_g?
    let dsc ← getKey .discriminator chk.discriminator?
    let od ← getKey .optimizer_d chk.optimizer_d?
    pure { s2 with optimizer_g := og, discriminator := dsc, optimizer_d := od }
  else
    pure { s2 with epochs := -1 }

/-! ### FID-evaluation padding branch (`evaluate_fid`, lines 316-349) -/

/-- The signal set fed to one inference call: noise, optional class
labels, optional caption tensors (a tuple of tensors in the source),
optional semantic masks. Each is a batch along the list axis. -/
structure InferenceSignals (α : Type) where
  noise : List α
  c : Option (List α)
  caption : Option (List (List α))
  seg : Option (List α)

/-- `pad_batch` (lines 322-324): concatenates `padding_bsz` zero rows
after the batch. -/
def pad_batch {α : Type} (padding_bsz : ℕ) (zero : α) (batch : List α) : List α :=
  batch ++ List.replicate padding_bsz zero

/-- Padding applied to every present tensor of the signal set
(lines 326-338); each tensor of a caption tuple is padded separately. -/
def pad_signals {α : Type} (padding_bsz : ℕ) (zero : α)
    (s : InferenceSignals α) : InferenceSignals α :=
  { noise := pad_batch padding_bsz zero s.noise
    c := s.c.map (pad_batch padding_bsz zero)
    caption := s.caption.map (fun xs => xs.map (pad_batch padding_bsz zero))
    seg := s.seg.map (pad_batch padding_bsz zero) }

/-- The inference dispatch of `evaluate_fid` (lines 316-349): when the
batch size divides the GPU count the signals go through unchanged; else
the signals are zero-padded up to the next multiple, one inference call
runs, and the outputs are truncated back to the original batch size. -/
def evaluate_fid_inference {α β : Type} (num_gpus : ℕ) (zero : α)
    (infer : InferenceSignals α → List β) (s : InferenceSignals α) : List β :=
  if s.noise.length % num_gpus = 0 then infer s
  else
    (infer (pad_signals (num_gpus - s.noise.length % num_gpus) zero s)).take
      s.noise.length

/-- Row `i` of the optional class-label signal. -/
def signal_row_c {α : Type} (s : InferenceSignals α) (i : ℕ) : Option α :=
  s.c.bind (fun l => l[i]?)

/-- Row `i` of the optional caption signal (one entry per caption
tensor). -/
def signal_row_caption {α : Type} (s : InferenceSignals α) (i : ℕ) :
    Option (List (Option α)) :=
  s.caption.map (fun xs => xs.map (fun t => t[i]?))

/-- Row `i` of the optional semantic-mask signal. -/
def signal_row_seg {α : Type} (s : InferenceSignals α) (i : ℕ) : Option α :=
  s.seg.bind (fun l => l[i]?)

/-- Modelled from the spec: the external generator stack behind
`trainer('inference', ...)` is a black box; per spec section 6 it is a
pure per-sample function of `(noise, conditioning)`, i.e. row `i` of its
output depends only on row `i` of each input signal. -/
def Rowwise {α β : Type} (infer : InferenceSignals α → List β)
    (g : α → Option α → Option (List (Option α)) → Option α → β) : Prop :=
  ∀ s : InferenceSignals α,
    (infer s).length = s.noise.length ∧
    ∀ i : ℕ, (infer s)[i]? =
      (s.noise[i]?).map
        (fun x => g x (signal_row_c s i) (signal_row_caption s i) (signal_row_seg s i))

/-! ### Truncated-noise rejection sampler (lines 305-314 and 990-997) -/

/-- One pass of `noise[mask] = torch.randn_like(noise[mask])`: each
coordinate with `|x| > sigma` is replaced by the next fresh draw, the
in-bound coordinates are untouched. -/
def resample_masked (sigma : ℚ) : List ℚ → List ℚ → List ℚ
  | _, [] => []
  | fresh, x :: xs =>
    if sigma < |x| then fresh.headD 0 :: resample_masked sigma fresh.tail xs
    else x :: resample_masked sigma fresh xs

/-- The rejection loop `while (noise.abs() > sigma).any(): ...`, with
the randomness oracle `stream` supplying the fresh draws of pass `step`
and an explicit fuel bound (`Option.none` means the loop is still
running when the fuel runs out). -/
def truncation_loop (sigma : ℚ) (stream : ℕ → List ℚ) :
    ℕ → ℕ → List ℚ → Option (List ℚ)
  | _, 0, noise =>
    if noise.any (fun x => sigma < |x|) then Option.none else some noise
  | step, fuel + 1, noise =>
    if noise.any (fun x => sigma < |x|) then
      truncation_loop sigma stream (step + 1) fuel
        (resample_masked sigma (stream step) noise)
    else some noise

/-! ### Learning-rate decay (lines 856-861) -/

/-- The end-of-epoch learning-rate update: only while
`lr_decay_after <= epoch < args.epochs` the optimizer lr is overwritten
with `base_lr * (1 - min(max((epoch - decay_after)/(epochs - decay_after), 0), 1))`;
otherwise the previous lr is kept. -/
def lr_epoch_update (base_lr : ℚ) (lr_decay_after epochs : ℕ)
    (epoch : ℕ) (lr : ℚ) : ℚ :=
  if lr_decay_after ≤ epoch ∧ epoch < epochs then
    base_lr *
      (1 - min (max (((epoch : ℚ) - (lr_decay_after : ℚ)) /
                     ((epochs : ℚ) - (lr_decay_after : ℚ))) 0) 1)
  else lr

/-- The optimizer learning rate in effect at the start of epoch `e`:
the initial `base_lr` transformed by the per-epoch updates of the
training loop (the update runs after `epoch += 1`, so the update seen by
epoch `e` is computed with counter value `e`). Both optimizers follow
this same function with their own `base_lr`. -/
def optimizer_lr (base_lr : ℚ) (lr_decay_after epochs : ℕ) : ℕ → ℚ
  | 0 => base_lr
  | e + 1 =>
    lr_epoch_update base_lr lr_decay_after epochs (e + 1)
      (optimizer_lr base_lr lr_decay_after epochs e)

/-! ### Best-checkpoint search (lines 901-952) -/

/-- `sorted(checkpoints.items())[::-1]` (line 918): epoch-numbered
checkpoints in descending epoch order. -/
def sort_epochs_desc (epochs : List ℕ) : List ℕ :=
  (List.insertionSort (fun a b => a ≤ b) epochs).reverse

/-- The scan loop (lines 932-944): per checkpoint, a `KeyboardInterrupt`
during its evaluation (`intr e = true`) breaks the loop keeping the
best found so far; otherwise its FID is compared against the running
minimum (`best_fid` starts at infinity, modelled by `Option.none`). -/
def scan_best (fid : ℕ → ℚ) (intr : ℕ → Bool) :
    List ℕ → Option (ℚ × ℕ) → Option (ℚ × ℕ)
  | [], best => best
  | e :: rest, best =>
    if intr e then best
    else
      scan_best fid intr rest
        (match best with
         | Option.none => some (fid e, e)
         | some b => if fid e < b.1 then some (fid e, e) else some b)

/-- The interrupt-free accumulation underlying `scan_best`. -/
def fold_best (fid : ℕ → ℚ) : List ℕ → Option (ℚ × ℕ) → Option (ℚ × ℕ)
  | [], best => best
  | e :: rest, best =>
    fold_best fid rest
      (match best with
       | Option.none => some (fid e, e)
       | some b => if fid e < b.1 then some (fid e, e) else some b)

/-- Abnormal endings of the best-checkpoint search: `sys.exit(1)` when
no numbered checkpoint exists (lines 922-924), and the crash of
`load_checkpoint(None)` (line 947: `torch.load(None)` raises) when no
checkpoint finished evaluating. -/
inductive SearchError where
  | noCheckpoints
  | loadNoneCrash
deriving DecidableEq

/-- The whole best-checkpoint search (lines 901-948): enumerate the
numbered checkpoints, scan them in descending epoch order tracking the
minimum FID, then reload the best checkpoint found; returns the epoch
whose weights are loaded for the final evaluation. -/
def best_checkpoint_search (fid : ℕ → ℚ) (intr : ℕ → Bool)
    (epochs : List ℕ) : Except SearchError ℕ :=
  if epochs.isEmpty then .error .noCheckpoints
  else
    match scan_best fid intr (sort_epochs_desc epochs) Option.none with
    | some b => .ok b.2
    | Option.none => .error .loadNoneCrash

/-- The checkpoints whose evaluation completes: the prefix of the
descending scan order before the first interrupted one (the `break` of
line 939 discards everything after it). -/
def completed_scan (intr : ℕ → Bool) (epochs : List ℕ) : List ℕ :=
  (sort_epochs_desc epochs).takeWhile (fun e => !intr e)

/-! ### Startup configuration validation (lines 95-161) -/

/-- The `--mode` flag. -/
inductive TemplateMode where
  | autodetect
  | singletpl
  | multitpl
deriving DecidableEq

/-- The configuration flags consulted by the startup checks.
`cache_dir_exists` models the filesystem test of lines 98-100;
`name_hints_mode` models whether the experiment name contains
`singletpl`/`multitpl` (lines 106-116). -/
structure ProgramArgs where
  texture_resolution : ℕ
  conditional_class : Bool
  conditional_color : Bool
  conditional_text : Bool
  conditional_semantics : Bool
  predict_semantics : Bool
  num_discriminators : ℕ
  evaluate : Bool
  filter_class_given : Bool
  cache_dir_exists : Bool
  mode : TemplateMode
  name_hints_mode : Bool
deriving DecidableEq

/-- The distinct fatal startup exits, in source order: the assert of
line 95, the cache-directory check (98-100), the mode autodetection
failure (105-116), the texture-resolution assert (152-153), the
unsupported-conditioning exit (155-157), and the `--filter_class` check
(159-161). Every one terminates the process with a non-zero status. -/
inductive StartupExit where
  | unsupportedSemanticsCombo
  | missingCacheDir
  | modeUndetected
  | lowTextureResolution
  | colorTextUnsupported
  | filterClassMisuse
deriving DecidableEq

/-- The startup checks of lines 95-161 in their source order; all run
before the model wrapper is constructed (line 647) and before any
training or evaluation. -/
def startup_validate (a : ProgramArgs) : Except StartupExit Unit :=
  if a.conditional_semantics = true ∧ a.predict_semantics = true then
    .error .unsupportedSemanticsCombo
  else if a.cache_dir_exists = false then
    .error .missingCacheDir
  else if a.mode = TemplateMode.autodetect ∧ a.name_hints_mode = false then
    .error .modeUndetected
  else if 3 ≤ a.num_discriminators ∧ a.texture_resolution < 512 then
    .error .lowTextureResolution
  else if a.conditional_color = true ∨ a.conditional_text = true then
    .error .colorTextUnsupported
  else if a.filter_class_given = true ∧ (a.evaluate = false ∨ a.conditional_class = false) then
    .error .filterClassMisuse
  else
    .ok ()

/-- The conditioning dispatch of the training loop (lines 780-787) and
of `evaluate_fid` (lines 285-292): class labels if `conditional_class`,
else captions if `conditional_text`, else no conditioning. Returns the
`(C, caption)` pair. -/
def resolve_conditioning {τ : Type} (a : ProgramArgs) (cls cap : Option τ) :
    Option τ × Option τ :=
  if a.conditional_class then (cls, Option.none)
  else if a.conditional_text then (Option.none, cap)
  else (Option.none, Option.none)

/-! ### Concrete inputs used by the witnesses and counterexamples -/

/-- A checkpoint lacking the `epoch`/`iteration` fields (and the curve
fields) but carrying weight and optimizer entries. -/
def weights_only_chk : Checkpoint ℕ ℕ :=
  { optimizer_g? := some 4
    optimizer_d? := some 5
    generator? := some 1
    generator_running_avg? := some 42
    discriminator? := some 3
    epoch? := Option.none
    iteration? := Option.none
    g_curve? := Option.none
    d_fake_curve? := Option.none
    d_real_curve? := Option.none
    flat_curve? := Option.none }

/-- A live training session configured for 600 epochs. -/
def demo_state : SessionState ℕ ℕ :=
  { epoch := 7, total_it := 9
    g_curve := [1], d_fake_curve := [2], d_real_curve := [3], flat_curve := [4]
    generator := 10, generator_running_avg := 11, discriminator := 12
    optimizer_g := 13, optimizer_d := 14, epochs := 600 }

/-- The spec scenario for the padding branch: batch size 8 with 3
replicas, conditioned on class labels. -/
def c4_signals : InferenceSignals ℚ :=
  { noise := [10, 20, 30, 40, 50, 60, 70, 80]
    c := some [1, 2, 3, 4, 5, 6, 7, 8]
    caption := Option.none
    seg := Option.none }

/-- A concrete row-wise inference black box for the padding witness. -/
def c4_infer (s : InferenceSignals ℚ) : List ℚ :=
  s.noise.map (fun x => x + 1)

/-- A configuration requesting caption conditioning, otherwise valid. -/
def c10_args : ProgramArgs :=
  { texture_resolution := 512
    conditional_class := false
    conditional_color := false
    conditional_text := true
    conditional_semantics := false
    predict_semantics := false
    num_discriminators := 2
    evaluate := false
    filter_class_given := false
    cache_dir_exists := true
    mode := TemplateMode.singletpl
    name_hints_mode := false }

/-! ## Theorems -/

/-- Indexing a `zipWith` where both sides are defined. -/
theorem zipWith_getElem?_some {α β γ : Type} (f : α → β → γ) :
    ∀ (as : List α) (bs : List β) (i : ℕ) (a : α) (b : β),
      as[i]? = some a → bs[i]? = some b →
      (List.zipWith f as bs)[i]? = some (f a b) := by
  intro as
  induction as with
  | nil => intro bs i a b ha; simp at ha
  | cons x xs ih =>
    intro bs i a b ha hb
    cases bs with
    | nil => simp at hb
    | cons y ys =>
      cases i with
      | zero =>
        simp at ha hb
        simp [List.zipWith, ha, hb]
      | succ n =>
        simp only [List.getElem?_cons_succ] at ha hb
        simpa [List.zipWith] using ih ys n a b ha hb

/-- Claim C1: for a concatenated batch of total size `2 * N` built
fake-then-real, `divide_pred` returns the first `N` elements as the fake
part and the last `N` as the real part, both for a flat tensor and for a
list of tensors (same per-element split), and the discriminator step
builds its input with the fake examples in the first half and the real
examples in the second half. -/
theorem divide_pred_fake_real_split {α : Type} (N : ℕ) (fake real : List α)
    (hf : fake.length = N) (hr : real.length = N)
    (ps : List (Option (List α)))
    (hps : ∀ x ∈ ps, ∀ t, x = some t → t.length = 2 * N) :
    (d_step_combined fake real).length = 2 * N ∧
    (d_step_combined fake real).take N = fake ∧
    (d_step_combined fake real).drop N = real ∧
    divide_pred (DPred.tensor (d_step_combined fake real)) =
      (DPred.tensor fake, DPred.tensor real) ∧
    (∀ t : List α, t.length = 2 * N →
      divide_pred (DPred.tensor t) =
        (DPred.tensor (t.take N), DPred.tensor (t.drop N))) ∧
    divide_pred (DPred.list ps) =
      (DPred.list (ps.map (fun x => x.map (fun t => t.take N))),
       DPred.list (ps.map (fun x => x.map (fun t => t.drop N)))) := by
  have hlen : (d_step_combined fake real).length = 2 * N := by
    simp [d_step_combined, hf, hr, two_mul]
  have hhalf : (d_step_combined fake real).length / 2 = N := by
    rw [hlen]; omega
  have htake : (d_step_combined fake real).take N = fake := by
    simpa [d_step_combined] using @List.take_left' _ fake real _ hf
  have hdrop : (d_step_combined fake real).drop N = real := by
    simpa [d_step_combined] using @List.drop_left' _ fake real _ hf
  refine ⟨hlen, htake, hdrop, ?_, ?_, ?_⟩
  · simp only [divide_pred, hhalf, htake, hdrop]
  · intro t ht
    have h2 : t.length / 2 = N := by rw [ht]; omega
    simp [divide_pred, h2]
  · simp only [divide_pred, Prod.mk.injEq, DPred.list.injEq]
    constructor
    · apply List.map_congr_left
      intro x hx
      cases x with
      | none => rfl
      | some t =>
        have ht := hps (some t) hx t rfl
        have h2 : t.length / 2 = N := by rw [ht]; omega
        simp [h2]
    · apply List.map_congr_left
      intro x hx
      cases x with
      | none => rfl
      | some t =>
        have ht := hps (some t) hx t rfl
        have h2 : t.length / 2 = N := by rw [ht]; omega
        simp [h2]

/-- Witness for C1 at `N = 2` with a flat tensor and a two-scale list
output. -/
theorem divide_pred_fake_real_split_witness :
    divide_pred (DPred.tensor (d_step_combined [1, 2] ([3, 4] : List ℕ))) =
      (DPred.tensor [1, 2], DPred.tensor [3, 4]) ∧
    divide_pred (DPred.list [some [10, 20, 30, 40], Option.none]) =
      (DPred.list [some [10, 20], Option.none],
       DPred.list [some ([30, 40] : List ℕ), Option.none]) := by
  have h := divide_pred_fake_real_split 2 [1, 2] [3, 4] rfl rfl
    [some [10, 20, 30, 40], Option.none]
    (by
      intro x hx t hxt
      simp at hx
      rcases hx with rfl | rfl
      · injection hxt with h; subst h; rfl
      · cases hxt)
  exact ⟨h.2.2.2.1, h.2.2.2.2.2⟩

/-- Claim C2: the running-average update sets
`avg_new = avg_old * alpha + current * (1 - alpha)` for floating-point
parameters, copies the live value verbatim for non-floating buffers, and
uses `alpha = base**100` for `epoch < 10`, `base**10` for
`10 <= epoch < 100`, and `base` for `epoch >= 100`. -/
theorem update_running_avg_formula (base : ℚ) (epoch : ℕ)
    (avg g : List TensorParam) (i : ℕ) (a c : TensorParam)
    (ha : avg[i]? = some a) (hc : g[i]? = some c) :
    (update_generator_running_avg base epoch avg g)[i]? =
      some (if a.isFloat then
              { a with value := a.value * running_avg_alpha base epoch +
                                c.value * (1 - running_avg_alpha base epoch) }
            else { a with value := c.value }) ∧
    running_avg_alpha base epoch =
      (if epoch < 10 then base ^ 100
       else if epoch < 100 then base ^ 10
       else base) := by
  constructor
  · have h := zipWith_getElem?_some
      (running_avg_param_update (running_avg_alpha base epoch)) avg g i a c ha hc
    rw [update_generator_running_avg, h]
    by_cases hF : a.isFloat <;> simp [running_avg_param_update, hF]
  · rfl

/-- Witness for C2: a float parameter and an integer buffer at epoch 50
with base decay 1/2. -/
theorem update_running_avg_formula_witness :
    (update_generator_running_avg (1/2) 50
        [⟨true, 2⟩, ⟨false, 5⟩] [⟨true, 4⟩, ⟨false, 7⟩])[1]? =
      some ⟨false, 7⟩ ∧
    (update_generator_running_avg (1/2) 50
        [⟨true, 2⟩, ⟨false, 5⟩] [⟨true, 4⟩, ⟨false, 7⟩])[0]? =
      some ⟨true, 2 * (1/2) ^ 10 + 4 * (1 - (1/2) ^ 10)⟩ := by
  constructor
  · have h := (update_running_avg_formula (1/2) 50
      [⟨true, 2⟩, ⟨false, 5⟩] [⟨true, 4⟩, ⟨false, 7⟩] 1 ⟨false, 5⟩ ⟨false, 7⟩
      rfl rfl).1
    simpa using h
  · have h := (update_running_avg_formula (1/2) 50
      [⟨true, 2⟩, ⟨false, 5⟩] [⟨true, 4⟩, ⟨false, 7⟩] 0 ⟨true, 2⟩ ⟨true, 4⟩
      rfl rfl).1
    simpa [running_avg_alpha] using h

/-- Claim C9: with effective decay 1 (base decay equal to 1) the update
leaves every floating-point shadow parameter unchanged; with effective
decay 0 (base decay equal to 0) a single update makes every
floating-point shadow parameter equal to the live generator value. -/
theorem running_avg_alpha_extremes (epoch : ℕ) (avg g : List TensorParam)
    (i : ℕ) (a c : TensorParam)
    (ha : avg[i]? = some a) (hc : g[i]? = some c) (hF : a.isFloat = true) :
    (update_generator_running_avg 1 epoch avg g)[i]? = some a ∧
    (update_generator_running_avg 0 epoch avg g)[i]? =
      some { a with value := c.value } := by
  have h1 : running_avg_alpha 1 epoch = 1 := by
    unfold running_avg_alpha; split <;> simp
  have h0 : running_avg_alpha 0 epoch = 0 := by
    unfold running_avg_alpha
    split
    · norm_num
    · split <;> norm_num
  obtain ⟨fl, v⟩ := a
  simp only [TensorParam.isFloat] at hF
  subst hF
  constructor
  · have h := zipWith_getElem?_some
      (running_avg_param_update (running_avg_alpha 1 epoch)) avg g i _ c ha hc
    rw [update_generator_running_avg, h]
    simp [running_avg_param_update, h1]
  · have h := zipWith_getElem?_some
      (running_avg_param_update (running_avg_alpha 0 epoch)) avg g i _ c ha hc
    rw [update_generator_running_avg, h]
    simp [running_avg_param_update, h0]

/-- Witness for C9 at a concrete float parameter. -/
theorem running_avg_alpha_extremes_witness :
    (update_generator_running_avg 1 3 [⟨true, 2⟩] [⟨true, 9⟩])[0]? =
      some ⟨true, 2⟩ ∧
    (update_generator_running_avg 0 3 [⟨true, 2⟩] [⟨true, 9⟩])[0]? =
      some ⟨true, 9⟩ := by
  have h := running_avg_alpha_extremes 3 [⟨true, 2⟩] [⟨true, 9⟩] 0
    ⟨true, 2⟩ ⟨true, 9⟩ rfl rfl rfl
  exact ⟨h.1, h.2⟩

/-- Claim C3: saving a checkpoint and loading it in resume mode
(`--continue_train`) reproduces the identical epoch counter, iteration
counter and all four curve sequences, and restores generator,
running-average generator, discriminator and both optimizer states equal
to those saved (other session fields, such as `args.epochs`, are
untouched, so training remains enabled). -/
theorem checkpoint_roundtrip {W O : Type} (s s0 : SessionState W O) :
    load_checkpoint_module true (save_checkpoint s) s0 =
      Except.ok { s0 with
        epoch := s.epoch, total_it := s.total_it,
        g_curve := s.g_curve, d_fake_curve := s.d_fake_curve,
        d_real_curve := s.d_real_curve, flat_curve := s.flat_curve,
        generator := s.generator,
        generator_running_avg := s.generator_running_avg,
        discriminator := s.discriminator,
        optimizer_g := s.optimizer_g, optimizer_d := s.optimizer_d } := by
  rfl

/-- Counterexample to C7 as stated: loading a checkpoint that lacks the
epoch/iteration fields with resume requested (`continue_train = true`)
does not force evaluate-only semantics: the load succeeds, optimizer and
discriminator states are taken from the record, and training stays
enabled (`epochs` remains 600 instead of being set to -1). -/
theorem weights_only_resume_not_disabled :
    load_checkpoint_module true weights_only_chk demo_state =
      Except.ok { demo_state with
        generator_running_avg := 42, optimizer_g := 4,
        discriminator := 3, optimizer_d := 5 } ∧
    ({ demo_state with
        generator_running_avg := 42, optimizer_g := 4,
        discriminator := 3, optimizer_d := 5 } :
        SessionState ℕ ℕ).epochs ≠ -1 := by
  exact ⟨rfl, by decide⟩

/-- Claim C7 (amended): a checkpoint lacking the epoch/iteration fields
is treated as a weights-only artifact in the sense that only the
running-average generator is restored (counters, curves and live
generator keep their in-memory values); training is disabled
(`epochs := -1`) exactly when resume was NOT requested, i.e. in
evaluate mode — when resume is requested the optimizer and
discriminator states are still loaded and training remains enabled. -/
theorem weights_only_checkpoint_spec {W O : Type} (chk : Checkpoint W O)
    (s : SessionState W O) (gra : W) (og od : O) (dsc : W)
    (hwo : chk.epoch? = Option.none)
    (hgra : chk.generator_running_avg? = some gra)
    (hog : chk.optimizer_g? = some og)
    (hdsc : chk.discriminator? = some dsc)
    (hod : chk.optimizer_d? = some od) :
    load_checkpoint_module false chk s =
      Except.ok { s with generator_running_avg := gra, epochs := -1 } ∧
    load_checkpoint_module true chk s =
      Except.ok { s with
        generator_running_avg := gra, optimizer_g := og,
        discriminator := dsc, optimizer_d := od } := by
  constructor <;>
    simp [load_checkpoint_module, getKey, hwo, hgra, hog, hdsc, hod,
      Bind.bind, Except.bind, Pure.pure, Except.pure]

/-- Witness for C7 (amended) on the concrete weights-only checkpoint. -/
theorem weights_only_checkpoint_spec_witness :
    load_checkpoint_module false weights_only_chk demo_state =
      Except.ok { demo_state with generator_running_avg := 42, epochs := -1 } := by
  exact (weights_only_checkpoint_spec weights_only_chk demo_state 42 4 5 3
    rfl rfl rfl rfl rfl).1

/-- Claim C4: when the active batch size is not divisible by the replica
count `R`, every signal tensor is zero-padded up to the next multiple of
`R`, the single inference call runs on the padded batch, and the outputs
truncated back to the original count agree row for row (same order, same
length) with what the non-padded call produces. The external generator
is the spec's black box, assumed row-wise (`Rowwise`). -/
theorem padded_inference_roundtrip {α β : Type} (R : ℕ) (zero : α)
    (infer : InferenceSignals α → List β)
    (g : α → Option α → Option (List (Option α)) → Option α → β)
    (s : InferenceSignals α)
    (hR : 0 < R) (hnd : s.noise.length % R ≠ 0)
    (hrow : Rowwise infer g)
    (hc : ∀ l, s.c = some l → l.length = s.noise.length)
    (hcap : ∀ xs, s.caption = some xs → ∀ t ∈ xs, t.length = s.noise.length)
    (hseg : ∀ l, s.seg = some l → l.length = s.noise.length) :
    (pad_signals (R - s.noise.length % R) zero s).noise.length % R = 0 ∧
    (evaluate_fid_inference R zero infer s).length = s.noise.length ∧
    ∀ i : ℕ, (evaluate_fid_inference R zero infer s)[i]? = (infer s)[i]? := by
  have hmlt : s.noise.length % R < R := Nat.mod_lt _ hR
  have hpadlen : (pad_signals (R - s.noise.length % R) zero s).noise.length =
      s.noise.length + (R - s.noise.length % R) := by
    simp [pad_signals, pad_batch]
  have harith : (s.noise.length + (R - s.noise.length % R)) % R = 0 := by
    rw [Nat.add_mod]
    have hk : (R - s.noise.length % R) % R = R - s.noise.length % R :=
      Nat.mod_eq_of_lt (by omega)
    rw [hk]
    have hsum : s.noise.length % R + (R - s.noise.length % R) = R := by omega
    rw [hsum, Nat.mod_self]
  have heval : evaluate_fid_inference R zero infer s =
      (infer (pad_signals (R - s.noise.length % R) zero s)).take s.noise.length := by
    simp [evaluate_fid_inference, hnd]
  have hinfpadlen : (infer (pad_signals (R - s.noise.length % R) zero s)).length =
      s.noise.length + (R - s.noise.length % R) := by
    rw [(hrow (pad_signals (R - s.noise.length % R) zero s)).1, hpadlen]
  have hevallen : (evaluate_fid_inference R zero infer s).length = s.noise.length := by
    rw [heval]
    simp [List.length_take, hinfpadlen]
  refine ⟨by rw [hpadlen]; exact harith, hevallen, ?_⟩
  intro i
  by_cases hi : i < s.noise.length
  · rw [heval, List.getElem?_take_of_lt hi]
    rw [(hrow (pad_signals (R - s.noise.length % R) zero s)).2 i, (hrow s).2 i]
    have hnoise : (pad_signals (R - s.noise.length % R) zero s).noise[i]? =
        s.noise[i]? := by
      simp only [pad_signals, pad_batch]
      exact List.getElem?_append_left hi
    have hc2 : signal_row_c (pad_signals (R - s.noise.length % R) zero s) i =
        signal_row_c s i := by
      cases hcc : s.c with
      | none => simp [signal_row_c, pad_signals, hcc]
      | some l =>
        have hl := hc l hcc
        simp only [signal_row_c, pad_signals, hcc, Option.map_some, Option.some_bind,
          pad_batch]
        exact List.getElem?_append_left (by rw [hl]; exact hi)
    have hseg2 : signal_row_seg (pad_signals (R - s.noise.length % R) zero s) i =
        signal_row_seg s i := by
      cases hcc : s.seg with
      | none => simp [signal_row_seg, pad_signals, hcc]
      | some l =>
        have hl := hseg l hcc
        simp only [signal_row_seg, pad_signals, hcc, Option.map_some, Option.some_bind,
          pad_batch]
        exact List.getElem?_append_left (by rw [hl]; exact hi)
    have hcap2 : signal_row_caption (pad_signals (R - s.noise.length % R) zero s) i =
        signal_row_caption s i := by
      cases hcc : s.caption with
      | none => simp [signal_row_caption, pad_signals, hcc]
      | some xs =>
        simp only [signal_row_caption, pad_signals, hcc, Option.map_some',
          Option.some.injEq]
        rw [List.map_map]
        apply List.map_congr_left
        intro t ht
        have hl := hcap xs hcc t ht
        simp only [Function.comp_apply, pad_batch]
        exact List.getElem?_append_left (by rw [hl]; exact hi)
    rw [hnoise, hc2, hseg2, hcap2]
  · rw [heval]
    have l1 : ((infer (pad_signals (R - s.noise.length % R) zero s)).take
        s.noise.length)[i]? = Option.none := by
      apply List.getElem?_eq_none
      simp only [List.length_take]
      omega
    have l2 : (infer s)[i]? = Option.none := by
      apply List.getElem?_eq_none
      rw [(hrow s).1]
      omega
    rw [l1, l2]

/-- Witness for C4 on the spec scenario: batch size 8, replica count 3
(padded to 9, truncated back to 8). -/
theorem padded_inference_roundtrip_witness :
    (evaluate_fid_inference 3 0 c4_infer c4_signals).length = 8 ∧
    (evaluate_fid_inference 3 0 c4_infer c4_signals)[5]? =
      (c4_infer c4_signals)[5]? := by
  have hrow : Rowwise c4_infer (fun x _ _ _ => x + 1) := by
    intro s'
    constructor
    · simp [c4_infer]
    · intro i
      simp [c4_infer]
  have h := padded_inference_roundtrip 3 0 c4_infer (fun x _ _ _ => x + 1)
    c4_signals (by decide) (by decide) hrow
    (by intro l hl; injection hl with h; subst h; rfl)
    (by intro xs h; exact Option.noConfusion h)
    (by intro l h; exact Option.noConfusion h)
  exact ⟨h.2.1, h.2.2 5⟩

/-- Negation of the out-of-bound test for every element, from a failed
`.any()`. -/
theorem all_inbound_of_not_any (sigma : ℚ) (noise : List ℚ)
    (h : ¬ noise.any (fun v => sigma < |v|) = true) :
    ∀ x ∈ noise, |x| ≤ sigma := by
  intro x hx
  by_contra hlt
  exact h (List.any_eq_true.mpr ⟨x, hx, by simpa using not_le.mp hlt⟩)

/-- `resample_masked` preserves the batch length. -/
theorem resample_masked_length (sigma : ℚ) :
    ∀ (fresh noise : List ℚ),
      (resample_masked sigma fresh noise).length = noise.length := by
  intro fresh noise
  induction noise generalizing fresh with
  | nil => rfl
  | cons x xs ih =>
    by_cases h : sigma < |x| <;> simp [resample_masked, h, ih]

/-- `resample_masked` leaves every in-bound coordinate untouched. -/
theorem resample_masked_keeps_inbound (sigma : ℚ) :
    ∀ (fresh noise : List ℚ) (i : ℕ) (x : ℚ),
      noise[i]? = some x → ¬ sigma < |x| →
      (resample_masked sigma fresh noise)[i]? = some x := by
  intro fresh noise
  induction noise generalizing fresh with
  | nil => intro i x h; simp at h
  | cons y ys ih =>
    intro i x hx hbound
    cases i with
    | zero =>
      simp only [List.getElem?_cons_zero, Option.some.injEq] at hx
      subst hx
      simp [resample_masked, hbound]
    | succ n =>
      simp only [List.getElem?_cons_succ] at hx
      by_cases h : sigma < |y| <;>
        simp only [resample_masked, h, if_true, if_false, List.getElem?_cons_succ] <;>
        exact ih _ n x hx hbound

/-- After one resampling pass with all fresh draws in bound, the whole
noise tensor is in bound (the default draw `0` is in bound as well). -/
theorem resample_masked_inbound_of_fresh (sigma : ℚ) (hs : 0 ≤ sigma) :
    ∀ (fresh noise : List ℚ), (∀ v ∈ fresh, |v| ≤ sigma) →
      ∀ x ∈ resample_masked sigma fresh noise, |x| ≤ sigma := by
  intro fresh noise
  induction noise generalizing fresh with
  | nil => intro hf x hx; simp [resample_masked] at hx
  | cons y ys ih =>
    intro hf x hx
    by_cases h : sigma < |y|
    · simp only [resample_masked, if_pos h] at hx
      rcases List.mem_cons.mp hx with rfl | hx2
      · cases fresh with
        | nil => simpa using hs
        | cons v vs => exact hf v (by simp)
      · exact ih fresh.tail (fun v hv => hf v (List.mem_of_mem_tail hv)) x hx2
    · simp only [resample_masked, if_neg h] at hx
      rcases List.mem_cons.mp hx with rfl | hx2
      · exact le_of_not_lt h
      · exact ih fresh hf x hx2

/-- The loop exits immediately (with `some`) on an in-bound tensor. -/
theorem truncation_loop_some_of_inbound (sigma : ℚ) (stream : ℕ → List ℚ) :
    ∀ (fuel step : ℕ) (noise : List ℚ), (∀ x ∈ noise, |x| ≤ sigma) →
      (truncation_loop sigma stream step fuel noise).isSome = true := by
  intro fuel step noise hall
  have hany : noise.any (fun v => sigma < |v|) = false := by
    rw [List.any_eq_false]
    intro x hx
    simpa using not_lt.mpr (hall x hx)
  cases fuel <;> simp [truncation_loop, hany]

/-- On termination, every returned coordinate is in bound. -/
theorem truncation_loop_inbound (sigma : ℚ) (stream : ℕ → List ℚ) :
    ∀ (fuel step : ℕ) (noise r : List ℚ),
      truncation_loop sigma stream step fuel noise = some r →
      ∀ x ∈ r, |x| ≤ sigma := by
  intro fuel
  induction fuel with
  | zero =>
    intro step noise r hr x hx
    by_cases hany : noise.any (fun v => sigma < |v|) = true
    · simp [truncation_loop, hany] at hr
    · simp [truncation_loop, hany] at hr
      subst hr
      exact all_inbound_of_not_any sigma noise hany x hx
  | succ n ih =>
    intro step noise r hr x hx
    by_cases hany : noise.any (fun v => sigma < |v|) = true
    · simp only [truncation_loop, hany, if_true] at hr
      exact ih (step + 1) _ r hr x hx
    · simp [truncation_loop, hany] at hr
      subst hr
      exact all_inbound_of_not_any sigma noise hany x hx

/-- The loop terminates once the oracle supplies an in-bound pass. -/
theorem truncation_loop_terminates_aux (sigma : ℚ) (stream : ℕ → List ℚ)
    (s : ℕ) (hs : 0 < sigma) (hgood : ∀ v ∈ stream s, |v| ≤ sigma) :
    ∀ (fuel step : ℕ) (noise : List ℚ), step ≤ s → s - step < fuel →
      (truncation_loop sigma stream step fuel noise).isSome = true := by
  intro fuel
  induction fuel with
  | zero => intro step noise h1 h2; omega
  | succ n ih =>
    intro step noise h1 h2
    by_cases hany : noise.any (fun v => sigma < |v|) = true
    · simp only [truncation_loop, hany, if_true]
      rcases Nat.eq_or_lt_of_le h1 with rfl | hlt
      · exact truncation_loop_some_of_inbound sigma stream n (step + 1) _
          (resample_masked_inbound_of_fresh sigma (le_of_lt hs) _ _ hgood)
      · exact ih (step + 1) _ (by omega) (by omega)
    · have hall := all_inbound_of_not_any sigma noise hany
      exact truncation_loop_some_of_inbound sigma stream (n + 1) step noise hall

/-- Claim C5: whenever the truncated-noise rejection loop terminates,
every coordinate of the returned tensor has absolute value at most
sigma; each pass replaces exactly the out-of-bound coordinates (length
kept, in-bound coordinates untouched); and the loop terminates as soon
as the randomness oracle supplies a pass of all-in-bound draws — the
deterministic skeleton of almost-sure termination for Gaussian draws. -/
theorem truncation_sampler_spec (sigma : ℚ) (stream : ℕ → List ℚ)
    (fresh noise : List ℚ) (fuel step s : ℕ) (hs : 0 < sigma) :
    (∀ r, truncation_loop sigma stream step fuel noise = some r →
      ∀ x ∈ r, |x| ≤ sigma) ∧
    ((resample_masked sigma fresh noise).length = noise.length ∧
      ∀ (i : ℕ) (x : ℚ), noise[i]? = some x → ¬ sigma < |x| →
        (resample_masked sigma fresh noise)[i]? = some x) ∧
    ((∀ v ∈ stream s, |v| ≤ sigma) → step ≤ s → s - step < fuel →
      (truncation_loop sigma stream step fuel noise).isSome = true) := by
  refine ⟨fun r hr => truncation_loop_inbound sigma stream fuel step noise r hr,
    ⟨resample_masked_length sigma fresh noise,
      fun i x => resample_masked_keeps_inbound sigma fresh noise i x⟩,
    fun hgood h1 h2 =>
      truncation_loop_terminates_aux sigma stream s hs hgood fuel step noise h1 h2⟩

/-- Witness for C5: sigma = 1, a batch with one out-of-bound coordinate,
an oracle whose first pass is in bound. -/
theorem truncation_sampler_spec_witness :
    (resample_masked 1 [0] [2, 1/2]).length = 2 ∧
    (truncation_loop 1 (fun _ => [0, 0]) 0 2 [2, 1/2]).isSome = true := by
  have h := truncation_sampler_spec 1 (fun _ => [0, 0]) [0] [2, 1/2] 2 0 0
    (by norm_num)
  refine ⟨h.2.1.1, h.2.2 ?_ (le_refl 0) (by norm_num)⟩
  intro v hv
  simp at hv
  subst hv
  norm_num

/-- Closed form of the learning rate while `lr_decay_after <= E < epochs`:
the clamped linear-decay formula. -/
theorem optimizer_lr_formula (base_lr : ℚ) (da total E : ℕ)
    (h1 : da ≤ E) (h2 : E < total) :
    optimizer_lr base_lr da total E =
      base_lr * (1 - min (max (((E : ℚ) - (da : ℚ)) /
                               ((total : ℚ) - (da : ℚ))) 0) 1) := by
  cases E with
  | zero =>
    have hda : da = 0 := Nat.le_zero.mp h1
    subst hda
    simp only [optimizer_lr, Nat.cast_zero, sub_zero, zero_div, max_self]
    rw [min_eq_left (by norm_num : (0 : ℚ) ≤ 1), sub_zero, mul_one]
  | succ e =>
    show lr_epoch_update base_lr da total (e + 1)
      (optimizer_lr base_lr da total e) = _
    unfold lr_epoch_update
    rw [if_pos ⟨h1, h2⟩]

/-- After training ends (`E >= epochs`) no update runs: the learning
rate stays at its last value. -/
theorem optimizer_lr_stops_at_end (base_lr : ℚ) (da total : ℕ) :
    ∀ k : ℕ, optimizer_lr base_lr da total (total + k) =
      optimizer_lr base_lr da total total := by
  intro k
  induction k with
  | zero => rfl
  | succ n ihn =>
    show lr_epoch_update base_lr da total (total + n + 1)
      (optimizer_lr base_lr da total (total + n)) = _
    unfold lr_epoch_update
    rw [if_neg (by omega)]
    exact ihn

/-- Counterexample to C6 as stated: with `base_lr = 1e-4`,
`decay_start = 100`, `total_epochs = 150`, the learning rate at epoch
150 is `2e-6 = 1/500000`, not 0: the update only runs while
`epoch < args.epochs`, so the factor never reaches 0. -/
theorem lr_not_zero_at_training_end :
    optimizer_lr (1/10000) 100 150 150 = 1/500000 ∧ (1/500000 : ℚ) ≠ 0 := by
  constructor
  · show lr_epoch_update (1/10000) 100 150 150
      (optimizer_lr (1/10000) 100 150 149) = 1/500000
    unfold lr_epoch_update
    rw [if_neg (by omega)]
    rw [optimizer_lr_formula (1/10000) 100 150 149 (by norm_num) (by norm_num)]
    norm_num [max_def, min_def]
  · norm_num

/-- Claim C6 (amended): the learning rate of both optimizers is
recomputed once per epoch as
`lr = base_lr * clamp(1 - (epoch - decay_start)/(total_epochs - decay_start), 0, 1)`
for every epoch with `decay_start <= epoch < total_epochs`; with
`base_lr = 1e-4`, `decay_start = 100`, `total_epochs = 150` the rate at
epoch 125 is `5e-5`; but the update is only applied while
`epoch < total_epochs`, so for every epoch `>= 150` the rate keeps its
last value `2e-6` (set at epoch 149) and never becomes 0. -/
theorem lr_decay_schedule_spec (base_lr : ℚ) (da total E : ℕ)
    (h1 : da ≤ E) (h2 : E < total) :
    optimizer_lr base_lr da total E =
      base_lr * (1 - min (max (((E : ℚ) - (da : ℚ)) /
                               ((total : ℚ) - (da : ℚ))) 0) 1) ∧
    optimizer_lr (1/10000) 100 150 125 = 1/20000 ∧
    ∀ E2 : ℕ, 150 ≤ E2 → optimizer_lr (1/10000) 100 150 E2 = 1/500000 := by
  refine ⟨optimizer_lr_formula base_lr da total E h1 h2, ?_, ?_⟩
  · rw [optimizer_lr_formula (1/10000) 100 150 125 (by norm_num) (by norm_num)]
    norm_num [max_def, min_def]
  · intro E2 hE
    obtain ⟨k, rfl⟩ : ∃ k, E2 = 150 + k := ⟨E2 - 150, by omega⟩
    rw [optimizer_lr_stops_at_end]
    show lr_epoch_update (1/10000) 100 150 150
      (optimizer_lr (1/10000) 100 150 149) = 1/500000
    unfold lr_epoch_update
    rw [if_neg (by omega)]
    rw [optimizer_lr_formula (1/10000) 100 150 149 (by norm_num) (by norm_num)]
    norm_num [max_def, min_def]

/-- Witness for C6 (amended) at the spec scenario epoch 125. -/
theorem lr_decay_schedule_spec_witness :
    optimizer_lr (1/10000) 100 150 125 = 1/20000 := by
  exact (lr_decay_schedule_spec (1/10000) 100 150 125 (by norm_num)
    (by norm_num)).2.1

/-- The interruptible scan equals the interrupt-free accumulation over
the prefix of checkpoints whose evaluation completes. -/
theorem scan_best_eq_fold_takeWhile (fid : ℕ → ℚ) (intr : ℕ → Bool) :
    ∀ (l : List ℕ) (acc : Option (ℚ × ℕ)),
      scan_best fid intr l acc =
        fold_best fid (l.takeWhile (fun e => !intr e)) acc := by
  intro l
  induction l with
  | nil => intro acc; rfl
  | cons e rest ih =>
    intro acc
    by_cases h : intr e = true
    · simp [scan_best, fold_best, List.takeWhile_cons, h]
    · simp [scan_best, fold_best, List.takeWhile_cons, h, ih]

/-- Accumulating from a concrete running best: the result is defined,
no larger than the running best, below every scanned FID, and is either
the running best or a scanned checkpoint with its own FID. -/
theorem fold_best_some (fid : ℕ → ℚ) :
    ∀ (l : List ℕ) (b : ℚ × ℕ),
      ∃ p : ℚ × ℕ, fold_best fid l (some b) = some p ∧
        (p = b ∨ (p.2 ∈ l ∧ p.1 = fid p.2)) ∧
        p.1 ≤ b.1 ∧ ∀ x ∈ l, p.1 ≤ fid x := by
  intro l
  induction l with
  | nil =>
    intro b
    exact ⟨b, rfl, Or.inl rfl, le_refl _, by simp⟩
  | cons e rest ih =>
    intro b
    by_cases h : fid e < b.1
    · obtain ⟨p, hp, hporig, hple, hpmin⟩ := ih (fid e, e)
      refine ⟨p, ?_, ?_, ?_, ?_⟩
      · simpa [fold_best, h] using hp
      · rcases hporig with rfl | hpr
        · exact Or.inr ⟨by simp, rfl⟩
        · exact Or.inr ⟨List.mem_cons_of_mem _ hpr.1, hpr.2⟩
      · exact le_trans hple (le_of_lt h)
      · intro x hx
        rcases List.mem_cons.mp hx with rfl | hx2
        · exact hple
        · exact hpmin x hx2
    · obtain ⟨p, hp, hporig, hple, hpmin⟩ := ih b
      refine ⟨p, ?_, ?_, hple, ?_⟩
      · simpa [fold_best, h] using hp
      · rcases hporig with rfl | hpr
        · exact Or.inl rfl
        · exact Or.inr ⟨List.mem_cons_of_mem _ hpr.1, hpr.2⟩
      · intro x hx
        rcases List.mem_cons.mp hx with rfl | hx2
        · exact le_trans hple (not_lt.mp h)
        · exact hpmin x hx2

/-- Accumulating from infinity over a nonempty list yields the minimum
FID together with a checkpoint achieving it. -/
theorem fold_best_none (fid : ℕ → ℚ) (l : List ℕ) (hl : l ≠ []) :
    ∃ e ∈ l, fold_best fid l Option.none = some (fid e, e) ∧
      ∀ x ∈ l, fid e ≤ fid x := by
  cases l with
  | nil => exact absurd rfl hl
  | cons a rest =>
    obtain ⟨p, hp, hporig, hple, hpmin⟩ := fold_best_some fid rest (fid a, a)
    obtain ⟨pf, ps⟩ := p
    have hfold : fold_best fid (a :: rest) Option.none = some (pf, ps) := by
      simpa [fold_best] using hp
    rcases hporig with heq | hpr
    · refine ⟨a, by simp, by rw [hfold, heq], ?_⟩
      intro x hx
      rcases List.mem_cons.mp hx with rfl | hx2
      · exact le_refl _
      · have hle := hpmin x hx2
        rw [heq] at hle
        simpa using hle
    · have hv : pf = fid ps := hpr.2
      have hm : ps ∈ rest := hpr.1
      subst hv
      refine ⟨ps, List.mem_cons_of_mem _ hm, hfold, ?_⟩
      intro x hx
      rcases List.mem_cons.mp hx with rfl | hx2
      · exact hple
      · exact hpmin x hx2

/-- Counterexample to C8 as stated: a single numbered checkpoint whose
evaluation is interrupted. The scan stops with no checkpoint completed,
and instead of "proceeding with none" the final reload step crashes:
`load_checkpoint(best_checkpoint)` is called with `None` and
`torch.load(None)` raises. -/
theorem best_search_crash_when_none_completed :
    best_checkpoint_search (fun _ => 10) (fun _ => true) [20] =
      Except.error SearchError.loadNoneCrash := by
  rfl

/-- Claim C8 (amended): the search scans all epoch-numbered checkpoints
in descending epoch order; an interrupt stops the scan, and only the
prefix completed before it counts; when at least one checkpoint
completed, the search reloads a completed checkpoint of minimum FID
before the final evaluation; when the scan is interrupted before any
checkpoint completed, the final reload is attempted with no checkpoint
and crashes instead of proceeding. -/
theorem best_search_spec (fid : ℕ → ℚ) (intr : ℕ → Bool) (epochs : List ℕ)
    (hne : epochs ≠ []) :
    List.Sorted (fun a b : ℕ => b ≤ a) (sort_epochs_desc epochs) ∧
    (sort_epochs_desc epochs).Perm epochs ∧
    (completed_scan intr epochs = [] →
      best_checkpoint_search fid intr epochs =
        Except.error SearchError.loadNoneCrash) ∧
    (completed_scan intr epochs ≠ [] →
      ∃ e ∈ completed_scan intr epochs,
        best_checkpoint_search fid intr epochs = Except.ok e ∧
        ∀ x ∈ completed_scan intr epochs, fid e ≤ fid x) := by
  have hie : epochs.isEmpty = false := by
    cases epochs with
    | nil => exact absurd rfl hne
    | cons a l => rfl
  have hsearch : best_checkpoint_search fid intr epochs =
      (match fold_best fid (completed_scan intr epochs) Option.none with
       | some b => Except.ok b.2
       | Option.none => Except.error SearchError.loadNoneCrash) := by
    unfold best_checkpoint_search
    rw [scan_best_eq_fold_takeWhile]
    simp [hie, completed_scan]
  refine ⟨?_, ?_, ?_, ?_⟩
  · unfold sort_epochs_desc
    exact List.pairwise_reverse.mpr
      (List.sorted_insertionSort (fun a b : ℕ => a ≤ b) epochs)
  · exact ((List.insertionSort (fun a b : ℕ => a ≤ b) epochs).reverse_perm).trans
      (List.perm_insertionSort _ epochs)
  · intro htw
    rw [hsearch, htw]
    rfl
  · intro htw
    obtain ⟨e, hmem, hfold, hmin⟩ :=
      fold_best_none fid (completed_scan intr epochs) htw
    refine ⟨e, hmem, ?_, hmin⟩
    rw [hsearch, hfold]

/-- Witness for C8 (amended): a single uninterrupted checkpoint is
found, completed, and reloaded. -/
theorem best_search_spec_witness :
    best_checkpoint_search (fun e => (e : ℚ)) (fun _ => false) [20] =
      Except.ok 20 := by
  obtain ⟨e, hmem, hok, hmin⟩ :=
    (best_search_spec (fun e => (e : ℚ)) (fun _ => false) [20]
      (by simp)).2.2.2 (by decide)
  have he : e = 20 := by
    rw [show completed_scan (fun _ : ℕ => false) [20] = [20] from rfl] at hmem
    simpa using hmem
  rw [he] at hok
  exact hok

/-- Claim C10: a configuration with `--conditional_text` or
`--conditional_color` never passes the startup checks — one of the
fatal exits fires (each terminates the process with a non-zero status
and a diagnostic, before the model wrapper of line 647 is built and
before any training or evaluation) — and conversely every configuration
that passes validation has both flags off, so the caption branch of the
conditioning dispatch is unreachable. -/
theorem conditional_text_color_rejected {τ : Type} (a : ProgramArgs)
    (cls cap : Option τ) :
    (a.conditional_text = true ∨ a.conditional_color = true →
      ∃ e, startup_validate a = Except.error e) ∧
    (startup_validate a = Except.ok () →
      a.conditional_text = false ∧ a.conditional_color = false ∧
      (resolve_conditioning a cls cap).2 = Option.none) := by
  constructor
  · intro h
    unfold startup_validate
    split_ifs with h1 h2 h3 h4 h5 h6
    · exact ⟨_, rfl⟩
    · exact ⟨_, rfl⟩
    · exact ⟨_, rfl⟩
    · exact ⟨_, rfl⟩
    · exact ⟨_, rfl⟩
    · exact ⟨_, rfl⟩
    · exact absurd (h.elim Or.inr Or.inl) h5
  · intro hok
    unfold startup_validate at hok
    split_ifs at hok with h1 h2 h3 h4 h5 h6
    rcases not_or.mp h5 with ⟨hcf, htf⟩
    have htext : a.conditional_text = false := by
      cases hx : a.conditional_text
      · rfl
      · exact absurd hx htf
    have hcolor : a.conditional_color = false := by
      cases hx : a.conditional_color
      · rfl
      · exact absurd hx hcf
    refine ⟨htext, hcolor, ?_⟩
    unfold resolve_conditioning
    by_cases hc1 : a.conditional_class <;> simp [hc1, htext]

/-- Witness for C10: a concrete configuration with `--conditional_text`
set is rejected at startup. -/
theorem conditional_text_color_rejected_witness :
    ∃ e, startup_validate c10_args = Except.error e := by
  exact (conditional_text_color_rejected c10_args
    (Option.none : Option ℕ) Option.none).1 (Or.inl rfl)

end RunGeneration
